import Mathlib

/-!
Verification of the signal-scanning engine of `project_g_api`.

The two scanner scripts `buy_breakout_915.py` and `sell_breakdown_1000.py`
are shallowly embedded below.  Prices and JSON numbers are modelled as
exact rationals (`ℚ`); Python's `round(x, 2)` is modelled by `round2`
(round half to even on exact rationals); Python's `math.floor` is `⌊·⌋`;
exceptions are modelled by the `Option`/sum-typed results the scripts
convert them to.  The network is modelled as an environment function
giving, per symbol (and per attempt / per fallback round where relevant),
the data the HTTP call would yield.  The MongoDB collection
`trading.daily_signals` is modelled as a list of day records together
with the exact `$set` / `$setOnInsert` / `insert_one` update shapes the
scripts issue.
-/

/-- Round half to even at integer precision, the behaviour of Python's
`round` on an exact value. -/
def rhe (q : ℚ) : ℤ :=
  let f := ⌊q⌋
  let r := q - f
  if r < 1/2 then f
  else if 1/2 < r then f + 1
  else if f % 2 = 0 then f else f + 1

/-- Python's `round(x, 2)` on exact rationals. -/
def round2 (q : ℚ) : ℚ := (rhe (q * 100) : ℚ) / 100

/-- IST offset (UTC+5:30) in milliseconds. -/
def istOffsetMs : ℚ := 19800000

/-- Milliseconds per day. -/
def dayMs : ℚ := 86400000

/-- Index of the IST calendar day containing the epoch instant `t`
(in milliseconds): `datetime.fromtimestamp(t/1000, IST).date()`. -/
def dayIdx (t : ℚ) : ℤ := ⌊(t + istOffsetMs) / dayMs⌋

/-- IST time of day of the epoch instant `t`, in milliseconds since local
midnight: the `.time()` part of `datetime.fromtimestamp(t/1000, IST)`. -/
def todMs (t : ℚ) : ℚ := t + istOffsetMs - dayMs * (dayIdx t : ℚ)

/-- `time(10, 0)` — the 10:00 IST cutoff — in milliseconds of the day. -/
def cutoffMs : ℚ := 36000000

/-- The `"%H:%M"` rendering of the IST time of day of `t`: hour and
minute. -/
def hourMinute (t : ℚ) : ℤ × ℤ :=
  let m := ⌊todMs t / 60000⌋
  (m / 60, m % 60)

/-- A raw candle as delivered by the charting endpoint: a JSON array of
numbers `[timestamp, open, high, low, close, volume]` (possibly of the
wrong length). -/
abbrev RawCandle : Type := List ℚ

/-- A well-formed six-field candle. -/
structure Candle where
  ts : ℚ
  openPrice : ℚ
  high : ℚ
  low : ℚ
  close : ℚ
  volume : ℚ
deriving DecidableEq

/-- Parse a raw candle into a `Candle`; `none` when the tuple unpacking
`ts, o, h, l, c, v = candle` would raise. -/
def toCandle : RawCandle → Option Candle
  | [ts, o, h, l, c, v] => some ⟨ts, o, h, l, c, v⟩
  | _ => none

/-- Parse a whole candle list; `none` when any candle is malformed. -/
def toCandles (l : List RawCandle) : Option (List Candle) := l.mapM toCandle

/-- `max` of a nonempty rational list, `none` on the empty list
(Python's `max(xs)` raises there, but both call sites guard). -/
def listMax : List ℚ → Option ℚ
  | [] => none
  | x :: xs => some (xs.foldl max x)

/-- `min` of a nonempty rational list, `none` on the empty list. -/
def listMin : List ℚ → Option ℚ
  | [] => none
  | x :: xs => some (xs.foldl min x)

/-- `extract_day_high_low`: highs/lows of the candles having at least 4
fields; `(None, None)` when there are none, else the rounded max high
and min low. -/
def extract_day_high_low (candles : List RawCandle) : Option ℚ × Option ℚ :=
  let hls := candles.filterMap fun c =>
    match c with
    | _ :: _ :: h :: l :: _ => some (h, l)
    | _ => none
  match listMax (hls.map Prod.fst), listMin (hls.map Prod.snd) with
  | some h, some l => (some (round2 h), some (round2 l))
  | _, _ => (none, none)

/-- One step of the running-maximum accumulation
`morning_high = h if morning_high is None else max(morning_high, h)`. -/
def optMaxHigh (mh : Option ℚ) (c : Candle) : Option ℚ :=
  match mh with
  | none => some c.high
  | some m => some (max m c.high)

/-- A JSON value as found in the `nse_available` field of the symbol
master list. -/
inductive JVal where
  | str (s : String)
  | boolean (b : Bool)
  | missing
deriving DecidableEq

/-- `to_bool` of both scripts: `True` for the boolean `True` and for any
string whose lowercasing is `"true"`; `False` otherwise. -/
def to_bool : JVal → Bool
  | .boolean b => b
  | .str s => s.toLower == "true"
  | .missing => false

/-- One entry of `obj_data.json`. -/
structure Stock where
  nse_code : Option String
  nse_available : JVal
deriving DecidableEq

/-- A buy-side signal record (the dict built by
`buy_breakout_915.process_stock`). -/
structure BuySignal where
  symbol : String
  openPrice : ℚ
  entry : ℚ
  target : ℚ
  stoploss : ℚ
  qty : ℤ
  day_high : Option ℚ
  day_low : Option ℚ
  status : String
deriving DecidableEq

/-- A sell-side signal record (the dict built by
`sell_breakdown_1000.process_stock`). -/
structure SellSignal where
  symbol : String
  morning_high : ℚ
  entry : ℚ
  target : ℚ
  stoploss : ℚ
  qty : ℤ
  entry_time : ℤ × ℤ
  day_high : Option ℚ
  day_low : Option ℚ
  status : String
deriving DecidableEq

namespace Buy

def CAPITAL : ℚ := 20000
def BREAKOUT_PCT : ℚ := 3/100
def TARGET_PCT : ℚ := 3/100
def STOPLOSS_PCT : ℚ := 1/100
def MAX_RETRIES : ℕ := 3
def FALLBACK_ROUNDS : ℕ := 3

/-- Outcome of `buy_breakout_915.process_stock`: `skip` is Python's
`None` (non-tradable / missing symbol), `failed s` is the bare symbol
string (retry later), `signal` is the signal dict. -/
inductive Outcome where
  | skip
  | failed (symbol : String)
  | signal (s : BuySignal)
deriving DecidableEq

/-- The retry loop of `fetch_candles_with_retry`:
`attempt k = some cs` models attempt `k` succeeding with candle payload
`cs` (already defaulted to `[]` when the JSON has no `candles` key),
`none` models the attempt raising.  `fuel` attempts remain, the next
attempt is numbered `k`. -/
def fetchLoop (attempt : ℕ → Option (List RawCandle)) : ℕ → ℕ → List RawCandle
  | 0, _ => []
  | fuel + 1, k =>
    match attempt k with
    | some cs => cs
    | none => fetchLoop attempt fuel (k + 1)

/-- `fetch_candles_with_retry`: attempts `1, …, MAX_RETRIES`; the first
successful attempt's payload is returned, `[]` after exhausting all
retries. -/
def fetch_candles_with_retry (attempt : ℕ → Option (List RawCandle)) : List RawCandle :=
  fetchLoop attempt MAX_RETRIES 1

/-- `buy_breakout_915.process_stock`.  `env symbol` is the value
`fetch_candles_with_retry(symbol, start, end)` returns for this symbol. -/
def process_stock (env : String → List RawCandle) (stock : Stock) (run_mode : String) :
    Outcome :=
  if to_bool stock.nse_available = false then .skip
  else
    match stock.nse_code with
    | none => .skip
    | some symbol =>
      if symbol = "" then .skip
      else
        match env symbol with
        | [] => .failed symbol
        | first :: rest =>
          match first with
          | _ :: o :: _ :: _ :: _ :: v :: _ =>
            if o ≤ 0 ∨ v < 100 then .failed symbol
            else
              let entry := round2 (o * (1 + BREAKOUT_PCT))
              let qty : ℤ := ⌊CAPITAL / entry⌋
              if qty ≤ 0 then .failed symbol
              else
                let target := round2 (entry * (1 + TARGET_PCT))
                let stoploss := round2 (entry * (1 - STOPLOSS_PCT))
                let dhl :=
                  if run_mode = "AFTERNOON" then extract_day_high_low (first :: rest)
                  else (none, none)
                .signal
                  { symbol := symbol
                    openPrice := round2 o
                    entry := entry
                    target := target
                    stoploss := stoploss
                    qty := qty
                    day_high := dhl.1
                    day_low := dhl.2
                    status := "PENDING" }
          | _ => .failed symbol

/-- One pass of the worker pool in `run_buy`: the dict results append to
the signal list, the string results form the round's `next_failed` set
(collected here in submission order; only membership and emptiness are
used). -/
def scanRound (eval : Stock → Outcome) (stocks : List Stock) :
    List BuySignal × List String :=
  (stocks.filterMap fun s =>
      match eval s with
      | .signal sig => some sig
      | _ => none,
   stocks.filterMap fun s =>
      match eval s with
      | .failed sym => some sym
      | _ => none)

/-- The fallback loop of `run_buy`.  `eval r s` is the outcome of
`process_stock` for stock `s` during round `r` (the network may answer
differently in different rounds).  `fuel` rounds remain, the next round
is numbered `roundNo`; `signals` and `failed` are the accumulator
variables `buy_signals` and `failed_symbols`.  Note the loop `break`s
*before* refreshing `failed` when a round has no failures. -/
def fallbackLoop (eval : ℕ → Stock → Outcome) (allStocks : List Stock) :
    ℕ → ℕ → List Stock → List BuySignal → List String →
    List BuySignal × List String
  | 0, _, _, signals, failed => (signals, failed)
  | fuel + 1, roundNo, current, signals, failed =>
    let (sigs, nextFailed) := scanRound (eval roundNo) current
    let signals' := signals ++ sigs
    if nextFailed.isEmpty then (signals', failed)
    else
      fallbackLoop eval allStocks fuel (roundNo + 1)
        (allStocks.filter fun s =>
          match s.nse_code with
          | some c => nextFailed.contains c
          | none => false)
        signals' nextFailed

/-- The whole scan phase of `run_buy`: up to `FALLBACK_ROUNDS` rounds
starting from the full stock list with empty accumulators. -/
def run_buy_scan (eval : ℕ → Stock → Outcome) (allStocks : List Stock) :
    List BuySignal × List String :=
  fallbackLoop eval allStocks FALLBACK_ROUNDS 1 allStocks [] []

end Buy

namespace Sell

def CAPITAL : ℚ := 20000
def TARGET_PCT : ℚ := 3/100
def STOPLOSS_PCT : ℚ := 2/100
def MAX_RETRIES : ℕ := 3

/-- `sell_breakdown_1000.fetch_candles_with_retry` — textually the same
retry loop as the buy script's. -/
def fetch_candles_with_retry (attempt : ℕ → Option (List RawCandle)) : List RawCandle :=
  Buy.fetchLoop attempt MAX_RETRIES 1

/-- `sell_breakdown_1000.get_run_mode`: decided purely from the current
IST wall-clock hour. -/
def get_run_mode (hour : ℕ) : String :=
  if hour = 10 then "MORNING"
  else if hour = 15 then "AFTERNOON"
  else "UNKNOWN"

/-- The first loop of the sell `process_stock`: the running
`morning_high` over the candles whose IST time of day is `≤ 10:00`. -/
def morning_high_of (candles : List Candle) : Option ℚ :=
  candles.foldl
    (fun mh c => if todMs c.ts ≤ cutoffMs then optMaxHigh mh c else mh)
    none

/-- The signal dict the sell `process_stock` builds at the breaching
candle `c`. -/
def mkSignal (symbol : String) (run_mode : String) (allCandles : List Candle)
    (mh : ℚ) (c : Candle) : Option SellSignal :=
  let entry := round2 c.close
  let target := round2 (entry * (1 - TARGET_PCT))
  let stoploss := round2 (entry * (1 + STOPLOSS_PCT))
  let qty : ℤ := ⌊CAPITAL / entry⌋
  if qty ≤ 0 then none
  else
    let dhl :=
      if run_mode = "AFTERNOON" then
        extract_day_high_low (allCandles.map fun x => [x.ts, x.openPrice, x.high, x.low, x.close, x.volume])
      else (none, none)
    some
      { symbol := symbol
        morning_high := round2 mh
        entry := entry
        target := target
        stoploss := stoploss
        qty := qty
        entry_time := hourMinute c.ts
        day_high := dhl.1
        day_low := dhl.2
        status := "PENDING" }

/-- The second loop of the sell `process_stock`: skip candles strictly
before the cutoff, return at the first remaining candle whose `low`
is below `morning_high` (returning `none` right there when the computed
quantity is non-positive), `none` when no candle breaches. -/
def scanLoop (symbol : String) (run_mode : String) (allCandles : List Candle)
    (mh : ℚ) : List Candle → Option SellSignal
  | [] => none
  | c :: rest =>
    if todMs c.ts < cutoffMs then scanLoop symbol run_mode allCandles mh rest
    else if c.low < mh then mkSignal symbol run_mode allCandles mh c
    else scanLoop symbol run_mode allCandles mh rest

/-- Lines 126–168 of `sell_breakdown_1000.process_stock`: the breakdown
evaluator on an (already unpacked) candle sequence. -/
def evalCandles (symbol : String) (run_mode : String) (candles : List Candle) :
    Option SellSignal :=
  match morning_high_of candles with
  | none => none
  | some mh => scanLoop symbol run_mode candles mh candles

/-- `sell_breakdown_1000.process_stock`.  `env symbol` is the result of
the retried fetch for this symbol.  A malformed candle makes the tuple
unpacking raise, which the `except` turns into `None`. -/
def process_stock (env : String → List RawCandle) (stock : Stock) (run_mode : String) :
    Option SellSignal :=
  if to_bool stock.nse_available = false then none
  else
    match stock.nse_code with
    | none => none
    | some symbol =>
      if symbol = "" then none
      else
        match env symbol with
        | [] => none
        | c0 :: cs =>
          match toCandles (c0 :: cs) with
          | none => none
          | some candles => evalCandles symbol run_mode candles

/-- The worker-pool phase of `run_sell`: truthy results (signal dicts)
are appended, everything else vanishes. -/
def scanStocks (env : String → List RawCandle) (stocks : List Stock)
    (run_mode : String) : List SellSignal :=
  stocks.filterMap fun s => process_stock env s run_mode

end Sell

/-- The `run_flags` sub-document of a day record.  The buy script uses
keys `morning_done` / `afternoon_done`, the sell script
`sell_morning_done` / `sell_afternoon_done`; `none` models an absent
key. -/
structure RunFlags where
  morning_done : Option Bool
  afternoon_done : Option Bool
  sell_morning_done : Option Bool
  sell_afternoon_done : Option Bool
deriving DecidableEq

/-- All four flags absent. -/
def RunFlags.empty : RunFlags := ⟨none, none, none, none⟩

/-- A document of the `trading.daily_signals` collection.  `none`
models an absent field; timestamps are abstract naturals. -/
structure DayRecord where
  trade_date : String
  created_at : ℕ
  updated_at : ℕ
  capital : Option ℚ
  margin : Option ℚ
  run_flags : RunFlags
  buy_signals : Option (List BuySignal)
  sell_signals : Option (List SellSignal)
deriving DecidableEq

/-- The collection: a list of documents.  The unique index on
`trade_date` is the invariant that the dates are pairwise distinct. -/
def datesUnique (store : List DayRecord) : Prop :=
  store.Pairwise fun a b => a.trade_date ≠ b.trade_date

/-- `update_one(filter, …)`: apply `f` to the first document matching
`td`, report whether one matched. -/
def updateByDate (td : String) (f : DayRecord → DayRecord) :
    List DayRecord → List DayRecord × Bool
  | [] => ([], false)
  | d :: rest =>
    if d.trade_date = td then (f d :: rest, true)
    else ((d :: (updateByDate td f rest).1), (updateByDate td f rest).2)

/-- `update_one(filter, update, upsert=True)`: modify the first match,
or insert `newDoc` when nothing matches. -/
def upsertByDate (td : String) (f : DayRecord → DayRecord) (newDoc : DayRecord)
    (store : List DayRecord) : List DayRecord :=
  if (updateByDate td f store).2 then (updateByDate td f store).1
  else (updateByDate td f store).1 ++ [newDoc]

/-- `find_one({"trade_date": td})`. -/
def findByDate (store : List DayRecord) (td : String) : Option DayRecord :=
  store.find? fun d => d.trade_date == td

/-- The run phase of the buy script (`run_mode` is only ever `MORNING`
or `AFTERNOON` there). -/
inductive Phase where
  | morning
  | afternoon
deriving DecidableEq

/-- `run_flags.{run_mode.lower()}_done = True` of the buy payload. -/
def setBuyFlag (ph : Phase) (f : RunFlags) : RunFlags :=
  match ph with
  | .morning => { f with morning_done := some true }
  | .afternoon => { f with afternoon_done := some true }

/-- One persistence call of either script, with the signal payload it
carries. -/
inductive PersistOp where
  | buy (ph : Phase) (signals : List BuySignal)
  | sellMorning (signals : List SellSignal)
  | sellAfternoon (signals : List SellSignal)
deriving DecidableEq

/-- The `$set` part of each call applied to an existing document. -/
def opSet (op : PersistOp) (t : ℕ) (d : DayRecord) : DayRecord :=
  match op with
  | .buy ph sigs =>
    { d with buy_signals := some sigs, updated_at := t,
             run_flags := setBuyFlag ph d.run_flags }
  | .sellMorning sigs =>
    { d with sell_signals := some sigs, updated_at := t,
             run_flags := { d.run_flags with sell_morning_done := some true } }
  | .sellAfternoon sigs =>
    { d with sell_signals := some sigs, updated_at := t,
             run_flags := { d.run_flags with sell_afternoon_done := some true } }

/-- The document each call creates when no document for `td` exists:
filter equality field + `$set` + `$setOnInsert` for the two upserts,
the literal `insert_one` document for the sell afternoon branch. -/
def opNewDoc (op : PersistOp) (td : String) (t : ℕ) : DayRecord :=
  match op with
  | .buy ph sigs =>
    { trade_date := td, created_at := t, updated_at := t,
      capital := some Buy.CAPITAL, margin := some 5,
      run_flags := setBuyFlag ph RunFlags.empty,
      buy_signals := some sigs, sell_signals := none }
  | .sellMorning sigs =>
    { trade_date := td, created_at := t, updated_at := t,
      capital := none, margin := none,
      run_flags := { RunFlags.empty with sell_morning_done := some true },
      buy_signals := none, sell_signals := some sigs }
  | .sellAfternoon sigs =>
    { trade_date := td, created_at := t, updated_at := t,
      capital := none, margin := none,
      run_flags := { RunFlags.empty with
                       sell_morning_done := some false,
                       sell_afternoon_done := some true },
      buy_signals := none, sell_signals := some sigs }

/-- Execute one persistence call against the collection.  The buy
payload and the sell `MORNING` branch are upserts; the sell `AFTERNOON`
branch first does `find_one` and then either `insert_one` or a plain
`update_one`. -/
def applyOp (op : PersistOp) (td : String) (t : ℕ) (store : List DayRecord) :
    List DayRecord :=
  match op with
  | .buy _ _ => upsertByDate td (opSet op t) (opNewDoc op td t) store
  | .sellMorning _ => upsertByDate td (opSet op t) (opNewDoc op td t) store
  | .sellAfternoon _ =>
    match findByDate store td with
    | none => store ++ [opNewDoc op td t]
    | some _ => (updateByDate td (opSet op t) store).1

/-- `run_sell` after the scan: resolve the mode from the wall-clock
hour, scan every stock, then persist according to the mode — the
`UNKNOWN` mode matches neither branch and writes nothing.  Returns the
updated collection and the computed signal list (whose length is what
the completion message reports). -/
def run_sell_full (hour : ℕ) (env : String → List RawCandle) (stocks : List Stock)
    (store : List DayRecord) (td : String) (t : ℕ) :
    List DayRecord × List SellSignal :=
  let mode := Sell.get_run_mode hour
  let signals := Sell.scanStocks env stocks mode
  let store' :=
    if mode = "MORNING" then applyOp (.sellMorning signals) td t store
    else if mode = "AFTERNOON" then applyOp (.sellAfternoon signals) td t store
    else store
  (store', signals)

namespace Buy

/-- `buy_breakout_915.get_run_mode`: `MORNING` when no document for the
date exists or its `run_flags.morning_done` is absent/falsy,
`AFTERNOON` otherwise. -/
def get_run_mode (store : List DayRecord) (td : String) : String :=
  match findByDate store td with
  | none => "MORNING"
  | some doc =>
    if doc.run_flags.morning_done = some true then "AFTERNOON" else "MORNING"

end Buy

/-- The breakdown evaluator as the specification words it: `morning_high`
is the maximum `high` over the longest initial segment of the candle
sequence lying at or before the 10:00 cutoff (reject when that segment
is empty); the signal comes from the *first* candle at or after the
cutoff whose `low` is below `morning_high` — `entry` its rounded close,
`target = entry·(1 − target_pct)`, `stop_loss = entry·(1 + stoploss_pct)`,
`quantity = ⌊capital / entry⌋`, `entry_time` that candle's timestamp —
rejecting when no candle breaches or the quantity is non-positive. -/
def sellSpecEval (symbol : String) (run_mode : String) (candles : List Candle) :
    Option SellSignal :=
  let morningPart := candles.takeWhile fun c => todMs c.ts ≤ cutoffMs
  match listMax (morningPart.map (·.high)) with
  | none => none
  | some mh =>
    match candles.find? (fun c => decide (cutoffMs ≤ todMs c.ts) && decide (c.low < mh)) with
    | none => none
    | some c =>
      let entry := round2 c.close
      let qty : ℤ := ⌊(20000 : ℚ) / entry⌋
      if qty ≤ 0 then none
      else
        let dhl :=
          if run_mode = "AFTERNOON" then
            extract_day_high_low
              (candles.map fun x => [x.ts, x.openPrice, x.high, x.low, x.close, x.volume])
          else (none, none)
        some
          { symbol := symbol
            morning_high := round2 mh
            entry := entry
            target := round2 (entry * (1 - 3/100))
            stoploss := round2 (entry * (1 + 2/100))
            qty := qty
            entry_time := hourMinute c.ts
            day_high := dhl.1
            day_low := dhl.2
            status := "PENDING" }

/-- The buy-side flag a phase writes. -/
def buyFlagOf (ph : Phase) (f : RunFlags) : Option Bool :=
  match ph with
  | .morning => f.morning_done
  | .afternoon => f.afternoon_done

/-- What a persistence call must write into the matched (or created)
document: its side's whole signal sequence, its phase flag set to
`true`, and `updated_at`. -/
def opWrites (op : PersistOp) (t : ℕ) (d : DayRecord) : Prop :=
  d.updated_at = t ∧
  match op with
  | .buy ph sigs => d.buy_signals = some sigs ∧ buyFlagOf ph d.run_flags = some true
  | .sellMorning sigs =>
    d.sell_signals = some sigs ∧ d.run_flags.sell_morning_done = some true
  | .sellAfternoon sigs =>
    d.sell_signals = some sigs ∧ d.run_flags.sell_afternoon_done = some true

/-- What a persistence call must leave alone in an existing document:
the other side's signal sequence and both of the other side's flags. -/
def opFrames (op : PersistOp) (d d' : DayRecord) : Prop :=
  match op with
  | .buy _ _ =>
    d'.sell_signals = d.sell_signals
    ∧ d'.run_flags.sell_morning_done = d.run_flags.sell_morning_done
    ∧ d'.run_flags.sell_afternoon_done = d.run_flags.sell_afternoon_done
  | .sellMorning _ =>
    d'.buy_signals = d.buy_signals
    ∧ d'.run_flags.morning_done = d.run_flags.morning_done
    ∧ d'.run_flags.afternoon_done = d.run_flags.afternoon_done
  | .sellAfternoon _ =>
    d'.buy_signals = d.buy_signals
    ∧ d'.run_flags.morning_done = d.run_flags.morning_done
    ∧ d'.run_flags.afternoon_done = d.run_flags.afternoon_done

/-- `g` keeps every flag that `f` has set to `true`. -/
def flagsMono (f g : RunFlags) : Prop :=
  (f.morning_done = some true → g.morning_done = some true)
  ∧ (f.afternoon_done = some true → g.afternoon_done = some true)
  ∧ (f.sell_morning_done = some true → g.sell_morning_done = some true)
  ∧ (f.sell_afternoon_done = some true → g.sell_afternoon_done = some true)

/-- Claim C4 read against the sell-side resolver: whenever today's day
record exists and its sell-side morning flag is `true`, the resolver —
which in the sell script only sees the wall-clock hour — answers
`AFTERNOON`. -/
def claimC4SellResolver : Prop :=
  ∀ (hour : ℕ) (store : List DayRecord) (td : String) (d : DayRecord),
    findByDate store td = some d →
    d.run_flags.sell_morning_done = some true →
    Sell.get_run_mode hour = "AFTERNOON"

/-- Fixture for the fallback-loop analysis: stock `A`. -/
def c3stockA : Stock := ⟨some "A", .boolean true⟩

/-- Fixture for the fallback-loop analysis: stock `B`. -/
def c3stockB : Stock := ⟨some "B", .boolean true⟩

/-- Network fixture: symbol `B`'s fetch comes back empty in round 1 and
succeeds from round 2 on; symbol `A` always succeeds. -/
def c3env : ℕ → String → List RawCandle := fun r sym =>
  if sym = "B" ∧ r = 1 then [] else [[0, 100, 100, 99, 99.5, 500]]

/-- Per-round evaluation of the fixture through the buy evaluator. -/
def c3eval : ℕ → Stock → Buy.Outcome := fun r s =>
  Buy.process_stock (c3env r) s "MORNING"

/-- The signal the fixture candle produces for a symbol. -/
def c3sig (sym : String) : BuySignal :=
  ⟨sym, 100, 103, 10609/100, 10197/100, 194, none, none, "PENDING"⟩

/-! ## Helper lemmas -/

/-- The guarded running-maximum fold is the plain fold over the
candles passing the cutoff test. -/
theorem foldl_optMaxHigh_filter (l : List Candle) :
    ∀ acc : Option ℚ,
      l.foldl (fun mh c => if todMs c.ts ≤ cutoffMs then optMaxHigh mh c else mh) acc
        = (l.filter fun c => decide (todMs c.ts ≤ cutoffMs)).foldl optMaxHigh acc := by
  induction l with
  | nil => intro acc; rfl
  | cons c t ih =>
    intro acc
    by_cases h : todMs c.ts ≤ cutoffMs
    · simp [List.filter_cons, h, ih]
    · simp [List.filter_cons, h, ih]

/-- Folding `optMaxHigh` from a seeded maximum is the seeded `max`
fold of the highs. -/
theorem foldl_optMaxHigh_some (l : List Candle) :
    ∀ m : ℚ, l.foldl optMaxHigh (some m) = some (l.foldl (fun x c => max x c.high) m) := by
  induction l with
  | nil => intro m; rfl
  | cons c t ih => intro m; simp [optMaxHigh, ih]

/-- Folding `optMaxHigh` from `none` computes the maximum of the highs. -/
theorem foldl_optMaxHigh_eq_listMax (l : List Candle) :
    l.foldl optMaxHigh none = listMax (l.map (·.high)) := by
  cases l with
  | nil => rfl
  | cons c t =>
    simp [optMaxHigh, listMax, foldl_optMaxHigh_some, List.foldl_map]

/-- Over a `Pairwise`-ordered list whose ordering transports the
predicate backwards, `filter` and `takeWhile` agree. -/
theorem filter_eq_takeWhile_of_pairwise {α : Type} (p : α → Bool) (R : α → α → Prop)
    (hR : ∀ a b, R a b → p b = true → p a = true) :
    ∀ l : List α, l.Pairwise R → l.filter p = l.takeWhile p := by
  intro l
  induction l with
  | nil => intro _; rfl
  | cons a t ih =>
    intro hpw
    rcases List.pairwise_cons.mp hpw with ⟨ha, ht⟩
    by_cases hpa : p a = true
    · simp [List.filter_cons, List.takeWhile_cons, hpa, ih ht]
    · have hnone : t.filter p = [] := by
        refine List.filter_eq_nil_iff.mpr ?_
        intro b hb hpb
        exact hpa (hR a b (ha b hb) hpb)
      simp [List.filter_cons, List.takeWhile_cons, hpa, hnone]

/-- Within one IST calendar day the time of day is monotone in the
timestamp. -/
theorem todMs_mono_of_sameDay {a b : ℚ} (hd : dayIdx a = dayIdx b) (hab : a ≤ b) :
    todMs a ≤ todMs b := by
  unfold todMs
  rw [hd]
  linarith

/-- The sell breach loop returns exactly at the first candle at or
after the cutoff whose low is below `mh`. -/
theorem scanLoop_eq_find (sym mode : String) (all : List Candle) (mh : ℚ)
    (l : List Candle) :
    Sell.scanLoop sym mode all mh l =
      match l.find? (fun c => decide (cutoffMs ≤ todMs c.ts) && decide (c.low < mh)) with
      | none => none
      | some c => Sell.mkSignal sym mode all mh c := by
  induction l with
  | nil => rfl
  | cons c t ih =>
    by_cases h1 : todMs c.ts < cutoffMs
    · have h1' : ¬ cutoffMs ≤ todMs c.ts := not_le.mpr h1
      simp [Sell.scanLoop, List.find?_cons, h1, h1', ih]
    · have h1' : cutoffMs ≤ todMs c.ts := not_lt.mp h1
      by_cases h2 : c.low < mh
      · simp [Sell.scanLoop, List.find?_cons, h1, h1', h2]
      · simp [Sell.scanLoop, List.find?_cons, h1, h1', h2, ih]

/-! ## C1 — breakdown (sell) evaluator -/

/-- C1: on a time-ascending single-day candle sequence the breakdown
evaluator equals its specification: `morning_high` is the maximum high
over the initial segment of candles at or before the 10:00 cutoff
(rejecting when that segment is empty); the signal comes from the
*first* candle at or after the cutoff whose low is below
`morning_high` — entry the rounded close, `target = entry·(1−0.03)`,
`stop_loss = entry·(1+0.02)`, `quantity = ⌊20000/entry⌋`, `entry_time`
that candle's time — no later candle is examined, and the evaluator
rejects when no candle breaches or the quantity is non-positive. -/
theorem claim_C1_sell_breakdown (symbol run_mode : String) (candles : List Candle)
    (D : ℤ) (hsort : candles.Pairwise fun a b => a.ts ≤ b.ts)
    (hday : ∀ c ∈ candles, dayIdx c.ts = D) :
    Sell.evalCandles symbol run_mode candles = sellSpecEval symbol run_mode candles := by
  have hpw : candles.Pairwise fun a b => todMs a.ts ≤ todMs b.ts := by
    refine hsort.imp_of_mem ?_
    intro a b ha hb hab
    exact todMs_mono_of_sameDay (by rw [hday a ha, hday b hb]) hab
  have hfilter :
      (candles.filter fun c => decide (todMs c.ts ≤ cutoffMs))
        = candles.takeWhile fun c => decide (todMs c.ts ≤ cutoffMs) := by
    refine filter_eq_takeWhile_of_pairwise _ _ ?_ candles hpw
    intro a b hR hpb
    simp only [decide_eq_true_eq] at hpb ⊢
    exact le_trans hR hpb
  have hmh :
      Sell.morning_high_of candles
        = listMax ((candles.takeWhile fun c => decide (todMs c.ts ≤ cutoffMs)).map (·.high)) := by
    unfold Sell.morning_high_of
    rw [foldl_optMaxHigh_filter, hfilter, foldl_optMaxHigh_eq_listMax]
  simp only [Sell.evalCandles, sellSpecEval, hmh]
  cases listMax ((candles.takeWhile fun c => decide (todMs c.ts ≤ cutoffMs)).map (·.high)) with
  | none => rfl
  | some mh =>
    dsimp only
    rw [scanLoop_eq_find]
    cases candles.find? (fun c => decide (cutoffMs ≤ todMs c.ts) && decide (c.low < mh)) with
    | none => rfl
    | some c =>
      simp [Sell.mkSignal, Sell.CAPITAL, Sell.TARGET_PCT, Sell.STOPLOSS_PCT]

/-- C1 witness: the theorem applied to a concrete two-candle day
(9:30 and 10:30 IST of IST-day 0). -/
theorem claim_C1_sell_breakdown_witness :
    (([⟨14400000, 100, 110, 99, 101, 500⟩, ⟨18000000, 100, 105, 104, 104.5, 600⟩] :
        List Candle).Pairwise fun a b => a.ts ≤ b.ts)
    ∧ (∀ c ∈ ([⟨14400000, 100, 110, 99, 101, 500⟩, ⟨18000000, 100, 105, 104, 104.5, 600⟩] :
        List Candle), dayIdx c.ts = 0)
    ∧ Sell.evalCandles "X" "MORNING"
        [⟨14400000, 100, 110, 99, 101, 500⟩, ⟨18000000, 100, 105, 104, 104.5, 600⟩]
        = sellSpecEval "X" "MORNING"
            [⟨14400000, 100, 110, 99, 101, 500⟩, ⟨18000000, 100, 105, 104, 104.5, 600⟩] := by
  have hsort :
      ([⟨14400000, 100, 110, 99, 101, 500⟩, ⟨18000000, 100, 105, 104, 104.5, 600⟩] :
        List Candle).Pairwise fun a b => a.ts ≤ b.ts := by
    simp [List.pairwise_cons]
    norm_num
  have hday :
      ∀ c ∈ ([⟨14400000, 100, 110, 99, 101, 500⟩, ⟨18000000, 100, 105, 104, 104.5, 600⟩] :
        List Candle), dayIdx c.ts = 0 := by
    intro c hc
    simp only [List.mem_cons, List.not_mem_nil, or_false] at hc
    rcases hc with rfl | rfl
    · norm_num [dayIdx, istOffsetMs, dayMs]
    · norm_num [dayIdx, istOffsetMs, dayMs]
  exact ⟨hsort, hday, claim_C1_sell_breakdown "X" "MORNING" _ 0 hsort hday⟩

/-! ## C2 — breakout (buy) end-to-end example -/

/-- C2: for the single candle `[t0, 100, 100, 99, 99.5, 500]` at
breakout config `(0.03, 0.03, 20000)` the buy evaluator yields
`entry = 103.00`, `target = 106.09`, `stoploss = 101.97`,
`quantity = 194` (floored, not 195) and `status = "PENDING"`. -/
theorem claim_C2_breakout_example (t0 : ℚ) :
    Buy.process_stock (fun _ => [[t0, 100, 100, 99, 99.5, 500]])
        ⟨some "X", .boolean true⟩ "MORNING"
      = .signal ⟨"X", 100, 103, 10609/100, 10197/100, 194, none, none, "PENDING"⟩ := by
  simp only [Buy.process_stock, to_bool]
  norm_num [round2, rhe, Buy.CAPITAL, Buy.BREAKOUT_PCT, Buy.TARGET_PCT, Buy.STOPLOSS_PCT]
  simp

/-! ## C3 — fallback loop leaves a stale failed set -/

/-- C3 (divergence witness): with stocks `A`, `B` where `B`'s fetch is
empty in round 1 and succeeds in round 2 while `A` always succeeds, the
scan of `run_buy` ends with **both** signals collected but with
`failed_symbols` still holding `"B"` — the loop breaks out of round 2
before clearing the previous round's failure set, so the
"Unavailable after retries" warning fires for a symbol that recovered.
The claim expects the failed set to be empty here. -/
theorem claim_C3_stale_failed_set :
    Buy.process_stock (c3env 1) c3stockB "MORNING" = .failed "B"
    ∧ Buy.process_stock (c3env 2) c3stockB "MORNING" = .signal (c3sig "B")
    ∧ Buy.run_buy_scan c3eval [c3stockA, c3stockB] = ([c3sig "A", c3sig "B"], ["B"])
    ∧ (["B"] : List String) ≠ [] := by
  have henvA : ∀ r, c3env r "A" = [[0, 100, 100, 99, 99.5, 500]] := by
    intro r; simp [c3env]
  have henvB1 : c3env 1 "B" = [] := by simp [c3env]
  have henvB2 : c3env 2 "B" = [[0, 100, 100, 99, 99.5, 500]] := by simp [c3env]
  have hA : ∀ r, c3eval r c3stockA = .signal (c3sig "A") := by
    intro r
    simp only [c3eval, c3stockA, Buy.process_stock, to_bool, henvA]
    norm_num [round2, rhe, Buy.CAPITAL, Buy.BREAKOUT_PCT, Buy.TARGET_PCT, Buy.STOPLOSS_PCT,
      c3sig]
    simp
  have hB1 : c3eval 1 c3stockB = .failed "B" := by
    simp only [c3eval, c3stockB, Buy.process_stock, to_bool, henvB1]
    simp
  have hB2 : c3eval 2 c3stockB = .signal (c3sig "B") := by
    simp only [c3eval, c3stockB, Buy.process_stock, to_bool, henvB2]
    norm_num [round2, rhe, Buy.CAPITAL, Buy.BREAKOUT_PCT, Buy.TARGET_PCT, Buy.STOPLOSS_PCT,
      c3sig]
    simp
  have hcodeA : c3stockA.nse_code = some "A" := rfl
  have hcodeB : c3stockB.nse_code = some "B" := rfl
  refine ⟨hB1, hB2, ?_, by simp⟩
  simp [Buy.run_buy_scan, Buy.FALLBACK_ROUNDS, Buy.fallbackLoop, Buy.scanRound,
    hA, hB1, hB2, hcodeA, hcodeB]

/-! ## C4 — run-mode resolution -/

/-- C4 (amended): the **buy**-side resolver obeys the claim — with
today's record present and `run_flags.morning_done = true` it answers
`AFTERNOON` whatever the wall-clock time (it never sees a clock), and
`MORNING` when the record is absent or the flag is unset/false.  The
**sell**-side resolver, by contrast, ignores the day record entirely
and answers purely from the wall-clock hour: 10 → `MORNING`,
15 → `AFTERNOON`, anything else → `UNKNOWN`. -/
theorem claim_C4_run_mode_amended :
    (∀ (store : List DayRecord) (td : String),
      (findByDate store td = none → Buy.get_run_mode store td = "MORNING")
      ∧ ∀ d, findByDate store td = some d →
          (d.run_flags.morning_done = some true → Buy.get_run_mode store td = "AFTERNOON")
          ∧ (d.run_flags.morning_done ≠ some true → Buy.get_run_mode store td = "MORNING"))
    ∧ ∀ hour : ℕ, Sell.get_run_mode hour
        = if hour = 10 then "MORNING" else if hour = 15 then "AFTERNOON" else "UNKNOWN" := by
  constructor
  · intro store td
    constructor
    · intro h
      simp [Buy.get_run_mode, h]
    · intro d hd
      constructor
      · intro hf
        simp [Buy.get_run_mode, hd, hf]
      · intro hf
        simp [Buy.get_run_mode, hd, hf]
  · intro hour
    rfl

/-- C4 counterexample: the sell-side resolver invoked at 9 o'clock
answers `UNKNOWN`, not `AFTERNOON`, even though today's record exists
with its sell-side morning flag `true` — the resolved mode is *not*
independent of the wall clock. -/
theorem claim_C4_counterexample : ¬ claimC4SellResolver := by
  intro h
  have hfind :
      findByDate [⟨"D", 0, 0, none, none, ⟨none, none, some true, none⟩, none, none⟩] "D"
        = some ⟨"D", 0, 0, none, none, ⟨none, none, some true, none⟩, none, none⟩ := by
    simp [findByDate]
  have h9 := h 9 [⟨"D", 0, 0, none, none, ⟨none, none, some true, none⟩, none, none⟩] "D"
      ⟨"D", 0, 0, none, none, ⟨none, none, some true, none⟩, none, none⟩ hfind rfl
  simp [Sell.get_run_mode] at h9

/-- C4 witness: the amended theorem applied to a concrete store with
`morning_done = true` and to the concrete hour 12. -/
theorem claim_C4_witness :
    Buy.get_run_mode
        [⟨"D", 0, 0, none, none, ⟨some true, none, none, none⟩, none, none⟩] "D"
      = "AFTERNOON"
    ∧ Sell.get_run_mode 12 = "UNKNOWN" := by
  constructor
  · exact ((claim_C4_run_mode_amended.1 _ "D").2
      ⟨"D", 0, 0, none, none, ⟨some true, none, none, none⟩, none, none⟩
      (by simp [findByDate])).1 rfl
  · simpa using claim_C4_run_mode_amended.2 12

/-! ## C5 — open/volume validation is retried, not a NoSignal -/

/-- C5 counterexample: a tradable symbol whose first candle has
`open = 0 ≤ 0` makes `process_stock` return the bare symbol — the
*retryable-failure* marker, not the `None` (NoSignal) the claim
expects — and the scan therefore re-schedules it every fallback round,
leaving it in the final failed set. -/
theorem claim_C5_counterexample :
    Buy.process_stock (fun _ => [[0, 0, 100, 99, 100, 500]])
        ⟨some "X", .boolean true⟩ "MORNING" = .failed "X"
    ∧ Buy.Outcome.failed "X" ≠ Buy.Outcome.skip
    ∧ (Buy.run_buy_scan
          (fun _ s => Buy.process_stock (fun _ => [[0, 0, 100, 99, 100, 500]]) s "MORNING")
          [⟨some "X", .boolean true⟩]).2 = ["X"] := by
  have hx :
      Buy.process_stock (fun _ => [[0, 0, 100, 99, 100, 500]])
          ⟨some "X", .boolean true⟩ "MORNING"
        = Buy.Outcome.failed "X" := by
    simp [Buy.process_stock, to_bool]
  refine ⟨hx, by simp, ?_⟩
  simp [Buy.run_buy_scan, Buy.FALLBACK_ROUNDS, Buy.fallbackLoop, Buy.scanRound, hx]

/-- C5 (amended): a tradable symbol whose first (well-formed) candle
has `open_price ≤ 0` or `volume < 100` is treated as a **retryable
failure**: the evaluator returns the symbol marker, so the symbol is
excluded from the signals and *is* re-scanned by the fallback loop. -/
theorem claim_C5_amended (env : String → List RawCandle) (stock : Stock)
    (sym mode : String) (first : RawCandle) (rest : List RawCandle)
    (ts o h l c v : ℚ) (tail : List ℚ)
    (havail : to_bool stock.nse_available = true)
    (hcode : stock.nse_code = some sym) (hne : sym ≠ "")
    (henv : env sym = first :: rest)
    (hfirst : first = ts :: o :: h :: l :: c :: v :: tail)
    (hbad : o ≤ 0 ∨ v < 100) :
    Buy.process_stock env stock mode = .failed sym := by
  subst hfirst
  simp [Buy.process_stock, havail, hcode, hne, henv, hbad]

/-- C5 witness: the amended theorem at the concrete zero-open candle. -/
theorem claim_C5_witness :
    Buy.process_stock (fun _ => [[0, 0, 100, 99, 100, 500]])
        ⟨some "Z", .boolean true⟩ "MORNING" = .failed "Z" :=
  claim_C5_amended _ _ "Z" "MORNING" _ [] 0 0 100 99 100 500 [] rfl rfl (by decide)
    rfl rfl (Or.inl le_rfl)

/-! ## C6 — failed symbols: recorded on the buy side, dropped on sell -/

/-- C6 counterexample: in the **sell** scanner a tradable symbol whose
retried fetch came back empty yields `None` — exactly the result of a
non-tradable (skipped) symbol — and the sell scan's only output, the
signal list, keeps no trace of it: `run_sell` has no failed set at all,
so the symbol *is* silently dropped, contradicting the claim. -/
theorem claim_C6_counterexample :
    Sell.process_stock (fun _ => []) ⟨some "X", .boolean true⟩ "MORNING" = none
    ∧ Sell.process_stock (fun _ => []) ⟨some "Y", .boolean false⟩ "MORNING" = none
    ∧ Sell.scanStocks (fun _ => []) [⟨some "X", .boolean true⟩] "MORNING" = [] := by
  refine ⟨?_, ?_, ?_⟩ <;> simp [Sell.process_stock, Sell.scanStocks, to_bool]

/-- C6 (amended): in the **buy** scanner an empty fetch result, a first
candle with fewer than six fields, or any path returning the symbol
marker is collected into the round's failed set, never dropped; the
**sell** scanner instead maps an empty fetch to `None`, keeping no
failure record. -/
theorem claim_C6_failed_recording_amended :
    (∀ (env : String → List RawCandle) (stock : Stock) (sym mode : String),
        to_bool stock.nse_available = true → stock.nse_code = some sym → sym ≠ "" →
        env sym = [] → Buy.process_stock env stock mode = .failed sym)
    ∧ (∀ (env : String → List RawCandle) (stock : Stock) (sym mode : String)
        (first : RawCandle) (rest : List RawCandle),
        to_bool stock.nse_available = true → stock.nse_code = some sym → sym ≠ "" →
        env sym = first :: rest → first.length < 6 →
        Buy.process_stock env stock mode = .failed sym)
    ∧ (∀ (eval : Stock → Buy.Outcome) (stocks : List Stock) (s : Stock) (sym : String),
        s ∈ stocks → eval s = .failed sym → sym ∈ (Buy.scanRound eval stocks).2)
    ∧ (∀ (env : String → List RawCandle) (stock : Stock) (sym mode : String),
        to_bool stock.nse_available = true → stock.nse_code = some sym → sym ≠ "" →
        env sym = [] → Sell.process_stock env stock mode = none) := by
  refine ⟨?_, ?_, ?_, ?_⟩
  · intro env stock sym mode havail hcode hne henv
    simp [Buy.process_stock, havail, hcode, hne, henv]
  · intro env stock sym mode first rest havail hcode hne henv hlen
    rcases first with _ | ⟨x1, _ | ⟨x2, _ | ⟨x3, _ | ⟨x4, _ | ⟨x5, _ | ⟨x6, tail⟩⟩⟩⟩⟩⟩
    · simp [Buy.process_stock, havail, hcode, hne, henv]
    · simp [Buy.process_stock, havail, hcode, hne, henv]
    · simp [Buy.process_stock, havail, hcode, hne, henv]
    · simp [Buy.process_stock, havail, hcode, hne, henv]
    · simp [Buy.process_stock, havail, hcode, hne, henv]
    · simp [Buy.process_stock, havail, hcode, hne, henv]
    · simp only [List.length_cons] at hlen
      omega
  · intro eval stocks s sym hs heval
    simp only [Buy.scanRound]
    refine List.mem_filterMap.mpr ⟨s, hs, ?_⟩
    simp [heval]
  · intro env stock sym mode havail hcode hne henv
    simp [Sell.process_stock, havail, hcode, hne, henv]

/-- C6 witness: the amended theorem's four parts at concrete inputs. -/
theorem claim_C6_witness :
    Buy.process_stock (fun _ => []) ⟨some "W", .boolean true⟩ "MORNING" = .failed "W"
    ∧ Buy.process_stock (fun _ => [[1, 2, 3]]) ⟨some "W", .boolean true⟩ "MORNING"
        = .failed "W"
    ∧ "W" ∈ (Buy.scanRound (fun _ => .failed "W") [⟨some "W", .boolean true⟩]).2
    ∧ Sell.process_stock (fun _ => []) ⟨some "W", .boolean true⟩ "MORNING" = none :=
  ⟨claim_C6_failed_recording_amended.1 _ _ _ _ rfl rfl (by decide) rfl,
   claim_C6_failed_recording_amended.2.1 _ _ _ _ [1, 2, 3] [] rfl rfl (by decide) rfl
     (by simp),
   claim_C6_failed_recording_amended.2.2.1 (fun _ => .failed "W")
     [⟨some "W", .boolean true⟩] ⟨some "W", .boolean true⟩ "W" (by simp) rfl,
   claim_C6_failed_recording_amended.2.2.2 _ _ _ _ rfl rfl (by decide) rfl⟩

/-! ## C9 — exhausted retries are not distinguishable from no data -/

/-- C9 counterexample: the retried fetch returns `[]` both when every
attempt fails and when the first attempt succeeds with an empty candle
array — the failure value is *identical* to the empty-success value, so
the caller cannot distinguish "error" from "no data". -/
theorem claim_C9_counterexample :
    Buy.fetch_candles_with_retry (fun _ => none)
        = Buy.fetch_candles_with_retry (fun _ => some [])
    ∧ Buy.fetch_candles_with_retry (fun _ => none) = []
    ∧ Sell.fetch_candles_with_retry (fun _ => none) = [] := by
  refine ⟨rfl, rfl, rfl⟩

/-- C9 (amended): after exhausting its three attempts the fetch returns
the empty list — an explicit value, no exception — but that value
coincides with a successful response carrying no candles, so the two
cases are indistinguishable to the caller. -/
theorem claim_C9_retry_amended (attempt : ℕ → Option (List RawCandle))
    (hfail : ∀ k, 1 ≤ k → k ≤ 3 → attempt k = none) :
    Buy.fetch_candles_with_retry attempt = []
    ∧ Sell.fetch_candles_with_retry attempt = []
    ∧ Buy.fetch_candles_with_retry attempt
        = Buy.fetch_candles_with_retry (fun _ => some []) := by
  have h1 := hfail 1 (by norm_num) (by norm_num)
  have h2 := hfail 2 (by norm_num) (by norm_num)
  have h3 := hfail 3 (by norm_num) (by norm_num)
  refine ⟨?_, ?_, ?_⟩ <;>
    simp [Buy.fetch_candles_with_retry, Sell.fetch_candles_with_retry,
      Buy.MAX_RETRIES, Sell.MAX_RETRIES, Buy.fetchLoop, h1, h2, h3]

/-- C9 witness: the amended theorem at the all-attempts-fail
environment. -/
theorem claim_C9_witness :
    (∀ k, 1 ≤ k → k ≤ 3 → (fun _ : ℕ => (none : Option (List RawCandle))) k = none)
    ∧ Buy.fetch_candles_with_retry (fun _ => none) = [] :=
  ⟨fun _ _ _ => rfl, (claim_C9_retry_amended (fun _ => none) (fun _ _ _ => rfl)).1⟩

/-! ## C10 — unknown sell mode scans but never persists -/

/-- C10: invoked at any wall-clock hour other than 10 or 15, the sell
run resolves mode `UNKNOWN`, still scans every stock (the completion
path sees the full signal list), and executes neither persistence
branch — the stored collection is returned unchanged. -/
theorem claim_C10_unknown_mode (hour : ℕ) (h10 : hour ≠ 10) (h15 : hour ≠ 15)
    (env : String → List RawCandle) (stocks : List Stock) (store : List DayRecord)
    (td : String) (t : ℕ) :
    run_sell_full hour env stocks store td t
      = (store, Sell.scanStocks env stocks "UNKNOWN")
    ∧ Sell.get_run_mode hour = "UNKNOWN" := by
  have hmode : Sell.get_run_mode hour = "UNKNOWN" := by
    simp [Sell.get_run_mode, h10, h15]
  refine ⟨?_, hmode⟩
  simp [run_sell_full, hmode]

/-- C10 witness: the theorem at hour 12 with a nonempty store and one
stock whose fetch is empty. -/
theorem claim_C10_witness :
    run_sell_full 12 (fun _ => []) [⟨some "X", .boolean true⟩]
        [⟨"D", 0, 0, none, none, ⟨none, none, none, none⟩, none, none⟩] "D" 7
      = ([⟨"D", 0, 0, none, none, ⟨none, none, none, none⟩, none, none⟩], [])
    ∧ Sell.get_run_mode 12 = "UNKNOWN" := by
  have h := claim_C10_unknown_mode 12 (by decide) (by decide) (fun _ => [])
    [⟨some "X", .boolean true⟩]
    [⟨"D", 0, 0, none, none, ⟨none, none, none, none⟩, none, none⟩] "D" 7
  refine ⟨h.1.trans ?_, h.2⟩
  simp [Sell.scanStocks, Sell.process_stock, to_bool]

/-! ## Store lemmas for the persistence layer -/

/-- `find_one` misses exactly when no document carries the date. -/
theorem findByDate_eq_none_iff (store : List DayRecord) (td : String) :
    findByDate store td = none ↔ ∀ d ∈ store, d.trade_date ≠ td := by
  simp [findByDate, List.find?_eq_none]

/-- An unmatched `update_one` touches nothing and reports no match. -/
theorem updateByDate_of_none (td : String) (f : DayRecord → DayRecord) :
    ∀ store : List DayRecord, findByDate store td = none →
      updateByDate td f store = (store, false) := by
  intro store
  induction store with
  | nil => intro _; rfl
  | cons x rest ih =>
    intro h
    rw [findByDate_eq_none_iff] at h
    have hx : x.trade_date ≠ td := h x (by simp)
    have hrest : findByDate rest td = none := by
      rw [findByDate_eq_none_iff]
      intro d hd
      exact h d (by simp [hd])
    simp [updateByDate, hx, ih hrest]

/-- A matched `update_one` reports the match, and the updated document
is found again under the same date (`f` preserving dates). -/
theorem updateByDate_of_some (td : String) (f : DayRecord → DayRecord)
    (hf : ∀ d, (f d).trade_date = d.trade_date) :
    ∀ (store : List DayRecord) (d : DayRecord), findByDate store td = some d →
      (updateByDate td f store).2 = true
      ∧ findByDate (updateByDate td f store).1 td = some (f d) := by
  intro store
  induction store with
  | nil => intro d h; simp [findByDate] at h
  | cons x rest ih =>
    intro d h
    by_cases hx : x.trade_date = td
    · have hd : d = x := by
        simp [findByDate, List.find?_cons_of_pos, hx] at h
        exact h.symm
      subst hd
      refine ⟨by simp [updateByDate, hx], ?_⟩
      simp [updateByDate, hx, findByDate, List.find?_cons_of_pos, hf d]
    · have h' : findByDate rest td = some d := by
        simpa [findByDate, List.find?_cons_of_neg, hx] using h
      rcases ih d h' with ⟨h2, h3⟩
      refine ⟨by simp [updateByDate, hx, h2], ?_⟩
      simp [updateByDate, hx, findByDate, List.find?_cons_of_neg]
      exact h3

/-- Every element of an updated store is an old element or the update
of an old element matching the date. -/
theorem updateByDate_mem (td : String) (f : DayRecord → DayRecord) :
    ∀ (store : List DayRecord) (y : DayRecord), y ∈ (updateByDate td f store).1 →
      y ∈ store ∨ ∃ z ∈ store, z.trade_date = td ∧ y = f z := by
  intro store
  induction store with
  | nil => intro y h; simp [updateByDate] at h
  | cons x rest ih =>
    intro y h
    by_cases hx : x.trade_date = td
    · simp only [updateByDate, if_pos hx, List.mem_cons] at h
      rcases h with h | h
      · exact Or.inr ⟨x, by simp, hx, h⟩
      · exact Or.inl (by simp [h])
    · simp only [updateByDate, if_neg hx, List.mem_cons] at h
      rcases h with h | h
      · exact Or.inl (by simp [h])
      · rcases ih y h with h' | ⟨z, hz, hzd, hyz⟩
        · exact Or.inl (by simp [h'])
        · exact Or.inr ⟨z, by simp [hz], hzd, hyz⟩

/-- A date-preserving `update_one` keeps the unique-index invariant. -/
theorem updateByDate_uniq (td : String) (f : DayRecord → DayRecord)
    (hf : ∀ d, (f d).trade_date = d.trade_date) :
    ∀ store : List DayRecord, datesUnique store →
      datesUnique (updateByDate td f store).1 := by
  intro store
  induction store with
  | nil => intro _; simp [updateByDate, datesUnique]
  | cons x rest ih =>
    intro h
    rcases List.pairwise_cons.mp h with ⟨hx, hrest⟩
    by_cases hxd : x.trade_date = td
    · simp only [updateByDate, if_pos hxd]
      refine List.pairwise_cons.mpr ⟨?_, hrest⟩
      intro y hy
      rw [hf x]
      exact hx y hy
    · simp only [updateByDate, if_neg hxd]
      refine List.pairwise_cons.mpr ⟨?_, ih hrest⟩
      intro y hy
      rcases updateByDate_mem td f rest y hy with h' | ⟨z, hz, hzd, hyz⟩
      · exact hx y h'
      · rw [hyz, hf z]
        exact hx z hz

/-- Positionally, an update leaves every document in place, replacing
at most the first date match by its update. -/
theorem updateByDate_getElem (td : String) (f : DayRecord → DayRecord) :
    ∀ (store : List DayRecord) (k : ℕ) (d : DayRecord), store[k]? = some d →
      ((updateByDate td f store).1)[k]? = some d
      ∨ ((updateByDate td f store).1)[k]? = some (f d) := by
  intro store
  induction store with
  | nil => intro k d h; simp at h
  | cons x rest ih =>
    intro k d h
    by_cases hx : x.trade_date = td
    · simp only [updateByDate, if_pos hx]
      cases k with
      | zero =>
        simp at h
        subst h
        simp
      | succ k => simp at h ⊢; exact Or.inl h
    · simp only [updateByDate, if_neg hx]
      cases k with
      | zero =>
        simp at h
        subst h
        simp
      | succ k =>
        simp at h ⊢
        exact ih k d h

/-- Every `$set` payload leaves the document's date untouched. -/
theorem opSet_trade_date (op : PersistOp) (t : ℕ) (d : DayRecord) :
    (opSet op t d).trade_date = d.trade_date := by
  cases op <;> rfl

/-- Every inserted document carries the filter's date. -/
theorem opNewDoc_trade_date (op : PersistOp) (td : String) (t : ℕ) :
    (opNewDoc op td t).trade_date = td := by
  cases op <;> rfl

/-- No `$set` payload touches `created_at`, `capital` or `margin`. -/
theorem opSet_creation_fields (op : PersistOp) (t : ℕ) (d : DayRecord) :
    (opSet op t d).created_at = d.created_at
    ∧ (opSet op t d).capital = d.capital
    ∧ (opSet op t d).margin = d.margin := by
  cases op <;> simp [opSet]

/-- When no document for the date exists, every call inserts its new
document at the end. -/
theorem applyOp_of_none (op : PersistOp) (td : String) (t : ℕ)
    (store : List DayRecord) (h : findByDate store td = none) :
    applyOp op td t store = store ++ [opNewDoc op td t] := by
  have hupd := updateByDate_of_none td (opSet op t) store h
  cases op with
  | buy ph sigs => simp [applyOp, upsertByDate, hupd]
  | sellMorning sigs => simp [applyOp, upsertByDate, hupd]
  | sellAfternoon sigs => simp [applyOp, h]

/-- When a document for the date exists, every call is the in-place
update of the first match. -/
theorem applyOp_of_some (op : PersistOp) (td : String) (t : ℕ)
    (store : List DayRecord) (d : DayRecord) (h : findByDate store td = some d) :
    applyOp op td t store = (updateByDate td (opSet op t) store).1 := by
  have hupd := updateByDate_of_some td (opSet op t) (opSet_trade_date op t) store d h
  cases op with
  | buy ph sigs => simp [applyOp, upsertByDate, hupd.1]
  | sellMorning sigs => simp [applyOp, upsertByDate, hupd.1]
  | sellAfternoon sigs => simp [applyOp, h]

/-- The `$set` payload writes its side's signals, its phase flag and
`updated_at`. -/
theorem opWrites_opSet (op : PersistOp) (t : ℕ) (d : DayRecord) :
    opWrites op t (opSet op t d) := by
  cases op with
  | buy ph sigs => cases ph <;> simp [opWrites, opSet, buyFlagOf, setBuyFlag]
  | sellMorning sigs => simp [opWrites, opSet]
  | sellAfternoon sigs => simp [opWrites, opSet]

/-- The inserted document also carries its side's signals, its phase
flag and `updated_at`. -/
theorem opWrites_opNewDoc (op : PersistOp) (td : String) (t : ℕ) :
    opWrites op t (opNewDoc op td t) := by
  cases op with
  | buy ph sigs =>
    cases ph <;> simp [opWrites, opNewDoc, buyFlagOf, setBuyFlag, RunFlags.empty]
  | sellMorning sigs => simp [opWrites, opNewDoc, RunFlags.empty]
  | sellAfternoon sigs => simp [opWrites, opNewDoc, RunFlags.empty]

/-- The `$set` payload leaves the other side's signals and flags
untouched. -/
theorem opFrames_opSet (op : PersistOp) (t : ℕ) (d : DayRecord) :
    opFrames op d (opSet op t d) := by
  cases op with
  | buy ph sigs => cases ph <;> simp [opFrames, opSet, setBuyFlag]
  | sellMorning sigs => simp [opFrames, opSet]
  | sellAfternoon sigs => simp [opFrames, opSet]

/-! ## C7 — upsert semantics of the result persister -/

/-- C7: one persistence call against a store satisfying the unique
`trade_date` index (i) preserves that uniqueness — so two calls for the
same date never duplicate the record; (ii) on the existing record it
leaves `created_at`, `capital` and `margin` (and the date) exactly as
the earlier call wrote them, replaces the whole signal sequence of its
side, sets its `run_flags.<phase>_done = true` and `updated_at`, and
leaves the other side's signals and flags unchanged; (iii) when no
record exists it inserts the single new document with its side's
payload. -/
theorem claim_C7_persist_upsert (op : PersistOp) (td : String) (t : ℕ)
    (store : List DayRecord) (huniq : datesUnique store) :
    datesUnique (applyOp op td t store)
    ∧ (∀ d, findByDate store td = some d →
        findByDate (applyOp op td t store) td = some (opSet op t d)
        ∧ (opSet op t d).trade_date = d.trade_date
        ∧ (opSet op t d).created_at = d.created_at
        ∧ (opSet op t d).capital = d.capital
        ∧ (opSet op t d).margin = d.margin
        ∧ opWrites op t (opSet op t d)
        ∧ opFrames op d (opSet op t d))
    ∧ (findByDate store td = none →
        applyOp op td t store = store ++ [opNewDoc op td t]
        ∧ opWrites op t (opNewDoc op td t)) := by
  refine ⟨?_, ?_, ?_⟩
  · cases hfind : findByDate store td with
    | none =>
      rw [applyOp_of_none op td t store hfind]
      rw [datesUnique, List.pairwise_append]
      refine ⟨huniq, by simp, ?_⟩
      intro a ha b hb
      simp only [List.mem_singleton] at hb
      subst hb
      rw [opNewDoc_trade_date]
      exact (findByDate_eq_none_iff store td).mp hfind a ha
    | some d =>
      rw [applyOp_of_some op td t store d hfind]
      exact updateByDate_uniq td _ (opSet_trade_date op t) store huniq
  · intro d hd
    rw [applyOp_of_some op td t store d hd]
    have h := updateByDate_of_some td (opSet op t) (opSet_trade_date op t) store d hd
    exact ⟨h.2, opSet_trade_date op t d, (opSet_creation_fields op t d).1,
      (opSet_creation_fields op t d).2.1, (opSet_creation_fields op t d).2.2,
      opWrites_opSet op t d, opFrames_opSet op t d⟩
  · intro h
    exact ⟨applyOp_of_none op td t store h, opWrites_opNewDoc op td t⟩

/-- C7 witness: a buy-morning persist over a one-record store for the
same date keeps the record's creation metadata and uniqueness. -/
theorem claim_C7_witness :
    datesUnique [⟨"D", 3, 1, some 7, some 9, RunFlags.empty, none, none⟩]
    ∧ datesUnique (applyOp (.buy .morning []) "D" 5
        [⟨"D", 3, 1, some 7, some 9, RunFlags.empty, none, none⟩])
    ∧ findByDate (applyOp (.buy .morning []) "D" 5
          [⟨"D", 3, 1, some 7, some 9, RunFlags.empty, none, none⟩]) "D"
        = some (opSet (.buy .morning []) 5
            ⟨"D", 3, 1, some 7, some 9, RunFlags.empty, none, none⟩)
    ∧ (opSet (.buy .morning []) 5
          ⟨"D", 3, 1, some 7, some 9, RunFlags.empty, none, none⟩).created_at = 3
    ∧ (opSet (.buy .morning []) 5
          ⟨"D", 3, 1, some 7, some 9, RunFlags.empty, none, none⟩).capital = some 7
    ∧ (opSet (.buy .morning []) 5
          ⟨"D", 3, 1, some 7, some 9, RunFlags.empty, none, none⟩).margin = some 9
    ∧ opWrites (.buy .morning []) 5 (opSet (.buy .morning []) 5
          ⟨"D", 3, 1, some 7, some 9, RunFlags.empty, none, none⟩) := by
  have huniq : datesUnique [(⟨"D", 3, 1, some 7, some 9, RunFlags.empty, none, none⟩ :
      DayRecord)] := by
    simp [datesUnique]
  have hfind : findByDate [(⟨"D", 3, 1, some 7, some 9, RunFlags.empty, none, none⟩ :
      DayRecord)] "D" = some ⟨"D", 3, 1, some 7, some 9, RunFlags.empty, none, none⟩ := by
    simp [findByDate]
  have h := claim_C7_persist_upsert (.buy .morning []) "D" 5
    [⟨"D", 3, 1, some 7, some 9, RunFlags.empty, none, none⟩] huniq
  have h2 := h.2.1 _ hfind
  exact ⟨huniq, h.1, h2.1, h2.2.2.1, h2.2.2.2.1, h2.2.2.2.2.1, h2.2.2.2.2.2.1⟩

/-! ## C8 — phase flags are never reset within a day -/

/-- `flagsMono` is reflexive. -/
theorem flagsMono_refl (f : RunFlags) : flagsMono f f :=
  ⟨fun h => h, fun h => h, fun h => h, fun h => h⟩

/-- Every `$set` payload only raises flags: a flag already `true` stays
`true`. -/
theorem opSet_flagsMono (op : PersistOp) (t : ℕ) (d : DayRecord) :
    flagsMono d.run_flags (opSet op t d).run_flags := by
  cases op with
  | buy ph sigs => cases ph <;> simp [flagsMono, opSet, setBuyFlag]
  | sellMorning sigs => simp [flagsMono, opSet]
  | sellAfternoon sigs => simp [flagsMono, opSet]

/-- C8: any persistence call maps each stored document in place to a
document with the same date whose `run_flags` only gained `true`s —
once a phase flag is `true` for a day, no later operation on that day's
record resets it; fresh documents appear only appended at the end. -/
theorem claim_C8_flags_never_reset (op : PersistOp) (td : String) (t : ℕ)
    (store : List DayRecord) (k : ℕ) (d : DayRecord) (hk : store[k]? = some d) :
    ∃ d', (applyOp op td t store)[k]? = some d'
      ∧ d'.trade_date = d.trade_date
      ∧ flagsMono d.run_flags d'.run_flags := by
  cases hfind : findByDate store td with
  | none =>
    rw [applyOp_of_none op td t store hfind]
    have hlt : k < store.length := by
      rcases List.getElem?_eq_some.mp hk with ⟨hlt, -⟩
      exact hlt
    rw [List.getElem?_append, if_pos hlt]
    exact ⟨d, hk, rfl, flagsMono_refl _⟩
  | some e =>
    rw [applyOp_of_some op td t store e hfind]
    rcases updateByDate_getElem td (opSet op t) store k d hk with h | h
    · exact ⟨d, h, rfl, flagsMono_refl _⟩
    · exact ⟨opSet op t d, h, opSet_trade_date op t d, opSet_flagsMono op t d⟩

/-- C8 witness: a sell-afternoon persist on a store whose record has
`sell_morning_done = true` keeps that flag `true`. -/
theorem claim_C8_witness :
    ([⟨"D", 3, 1, none, none, ⟨none, none, some true, none⟩, none, none⟩] :
        List DayRecord)[0]? = some ⟨"D", 3, 1, none, none, ⟨none, none, some true, none⟩, none, none⟩
    ∧ ∃ d', (applyOp (.sellAfternoon []) "D" 5
          [⟨"D", 3, 1, none, none, ⟨none, none, some true, none⟩, none, none⟩])[0]?
        = some d'
        ∧ d'.trade_date = "D"
        ∧ flagsMono ⟨none, none, some true, none⟩ d'.run_flags :=
  ⟨rfl, claim_C8_flags_never_reset (.sellAfternoon []) "D" 5
    [⟨"D", 3, 1, none, none, ⟨none, none, some true, none⟩, none, none⟩] 0
    ⟨"D", 3, 1, none, none, ⟨none, none, some true, none⟩, none, none⟩ rfl⟩
